import Mathlib

/-!
Verification of the MedVidDeID artifact-management core
(`src/pipeline/artifacts/{models,storage,audit,manager}.py`) through a
shallow embedding in Lean.  Python machine state (metadata directory,
audit-log files, clock, uuid supply) is passed explicitly; exceptions are
modelled with `Except String`; `datetime` values are modelled as natural
numbers (a totally ordered clock; `isoformat` and `fromisoformat` are
exact inverses of one another, so a timestamp round-trips through its
ISO-8601 string form and we keep the abstract value); `Path` values are
modelled by their (never empty) string rendering.
-/

namespace MedVidDeid

/-! ### models.py -/

/-- Python `ArtifactType` enumeration (models.py lines 11-23). -/
inductive ArtifactType where
  | video_raw
  | video_keypoints
  | video_deid
  | audio_raw
  | audio_transcript
  | audio_phi_intervals
  | audio_deid
  | text_raw
  | text_deid
  | metadata
  | log
deriving DecidableEq

/-- The `.value` string of each `ArtifactType` member. -/
def ArtifactType.value : ArtifactType → String
  | .video_raw => "video_raw"
  | .video_keypoints => "video_keypoints"
  | .video_deid => "video_deid"
  | .audio_raw => "audio_raw"
  | .audio_transcript => "audio_transcript"
  | .audio_phi_intervals => "audio_phi_intervals"
  | .audio_deid => "audio_deid"
  | .text_raw => "text_raw"
  | .text_deid => "text_deid"
  | .metadata => "metadata"
  | .log => "log"

/-- Python `ArtifactType(value)`: the member with the given value, or a
`ValueError` (modelled as `none`) for an unrecognized string. -/
def ArtifactType.ofValue (s : String) : Option ArtifactType :=
  if s = "video_raw" then some .video_raw
  else if s = "video_keypoints" then some .video_keypoints
  else if s = "video_deid" then some .video_deid
  else if s = "audio_raw" then some .audio_raw
  else if s = "audio_transcript" then some .audio_transcript
  else if s = "audio_phi_intervals" then some .audio_phi_intervals
  else if s = "audio_deid" then some .audio_deid
  else if s = "text_raw" then some .text_raw
  else if s = "text_deid" then some .text_deid
  else if s = "metadata" then some .metadata
  else if s = "log" then some .log
  else none

/-- Python `ArtifactStatus` enumeration (models.py lines 26-32). -/
inductive ArtifactStatus where
  | pending
  | in_progress
  | completed
  | failed
  | archived
deriving DecidableEq

/-- The `.value` string of each `ArtifactStatus` member. -/
def ArtifactStatus.value : ArtifactStatus → String
  | .pending => "pending"
  | .in_progress => "in_progress"
  | .completed => "completed"
  | .failed => "failed"
  | .archived => "archived"

/-- Python `ArtifactStatus(value)`. -/
def ArtifactStatus.ofValue (s : String) : Option ArtifactStatus :=
  if s = "pending" then some .pending
  else if s = "in_progress" then some .in_progress
  else if s = "completed" then some .completed
  else if s = "failed" then some .failed
  else if s = "archived" then some .archived
  else none

/-- JSON-serializable values (the `metadata` and `details` bags).
Python `json.dump` followed by `json.load` is the identity on such
trees (object keys are strings), which the embedding reflects by
storing the tree itself. -/
inductive Json where
  | null
  | bool (b : Bool)
  | num (n : Int)
  | str (s : String)
  | arr (xs : List Json)
  | obj (fields : List (String × Json))

/-- Python `ArtifactMetadata` dataclass (models.py lines 35-50).  Timestamps are
clock values (Nat); `file_path` is the string form of the `Path`. -/
structure ArtifactMetadata where
  artifact_id : String
  artifact_type : ArtifactType
  status : ArtifactStatus
  created_at : Nat
  updated_at : Nat
  source_artifacts : List String
  processing_module : Option String
  processing_version : Option String
  file_path : Option String
  file_size : Option Nat
  checksum : Option String
  metadata : Json
  error_message : Option String

/-- Python `ArtifactMetadata.update_status` (models.py lines 52-57): sets the
status, stamps `updated_at` with `datetime.now()` (the current clock),
and overwrites `error_message` only when the supplied message is truthy,
i.e. a non-empty string (`if error_message:`). -/
def ArtifactMetadata.update_status (a : ArtifactMetadata) (now : Nat)
    (status : ArtifactStatus) (error_message : Option String) : ArtifactMetadata :=
  { a with
    status := status
    updated_at := now
    error_message :=
      match error_message with
      | some msg => if msg = "" then a.error_message else some msg
      | none => a.error_message }

/-- Python `AuditEntry` dataclass (models.py lines 61-72).  An entry and its
`to_dict` JSON-line rendering are identified: every field round-trips
exactly (timestamps via ISO-8601). -/
structure AuditEntry where
  entry_id : String
  timestamp : Nat
  operation : String
  artifact_id : Option String
  user : Option String
  module : Option String
  action : String
  details : Json
  success : Bool
  error_message : Option String

/-! ### storage.py -/

/-- Python regex `\w` in its default Unicode mode, as used by
`re.sub` in `store_artifact` (storage.py line 67): a character is a
word character when it is alphanumeric in the Unicode sense
(`Py_UNICODE_ISALNUM`: alphabetic, decimal, digit or numeric) or an
underscore.  The table below is exact for every code point
below `0x100` (ASCII plus the Latin-1 supplement: the feminine and
masculine ordinals `0xAA`/`0xBA`, the superscripts `0xB2 0xB3 0xB9`,
micro `0xB5`, the vulgar fractions `0xBC`-`0xBE`, and the Latin-1
letters `0xC0`-`0xFF` without the multiplication and division
signs `0xD7`/`0xF7`); code points at or above `0x100` are outside the
range this development uses. -/
def pyIsWordChar (c : Char) : Bool :=
  (0x30 ≤ c.toNat && c.toNat ≤ 0x39) ||
  (0x41 ≤ c.toNat && c.toNat ≤ 0x5A) ||
  (0x61 ≤ c.toNat && c.toNat ≤ 0x7A) ||
  c.toNat = 0x5F ||
  c.toNat = 0xAA || c.toNat = 0xB2 || c.toNat = 0xB3 || c.toNat = 0xB5 ||
  c.toNat = 0xB9 || c.toNat = 0xBA || c.toNat = 0xBC || c.toNat = 0xBD ||
  c.toNat = 0xBE ||
  (0xC0 ≤ c.toNat && c.toNat ≤ 0xFF && c.toNat ≠ 0xD7 && c.toNat ≠ 0xF7)

/-- The sanitization step of `store_artifact` (storage.py lines 65-69):
the `re.sub` call replacing the class outside `[^\w\-_\.]`-complement by an underscore over `resolved_source.name`,
then truncation to 100 characters when longer.  The character class
keeps word characters (`\w`), dash and dot, and replaces everything
else with `_`. -/
def sanitizeChars (name : List Char) : List Char :=
  let safe := name.map fun c =>
    if pyIsWordChar c || c.toNat = 0x2D || c.toNat = 0x2E then c else '_'
  if safe.length > 100 then safe.take 100 else safe

/-- Python `sanitizeChars` lifted to `String`. -/
def sanitizeName (name : String) : String :=
  String.mk (sanitizeChars name.data)

/-- The JSON document written by `save_metadata` (storage.py lines
112-126): one field per dataclass field, enum members as their `.value`
strings, timestamps as ISO-8601 (kept abstract), `file_path` as a
string or null. -/
structure MetadataDoc where
  artifact_id : String
  artifact_type : String
  status : String
  created_at : Nat
  updated_at : Nat
  source_artifacts : List String
  processing_module : Option String
  processing_version : Option String
  file_path : Option String
  file_size : Option Nat
  checksum : Option String
  metadata : Json
  error_message : Option String

/-- The metadata directory (`<base>/metadata/<artifact_id>.json`):
an association of artifact ids to their stored JSON documents.  A
fresh write shadows any older entry for the same id, matching a file
overwrite. -/
def MetaDir : Type := List (String × MetadataDoc)

/-- File-system lookup in the metadata directory. -/
def dirFind : MetaDir → String → Option MetadataDoc
  | [], _ => none
  | (k, doc) :: rest, id => if k = id then some doc else dirFind rest id

/-- Python `save_metadata` (storage.py lines 103-131): serializes the artifact
into its JSON document and writes it at `<artifact_id>.json`.  Note
`str(artifact.file_path) if artifact.file_path else None`: a `Path`
object is always truthy, so the branch reduces to a null test, and the
string form of a `Path` is never the empty string. -/
def save_metadata (dir : MetaDir) (artifact : ArtifactMetadata) : MetaDir :=
  (artifact.artifact_id,
    { artifact_id := artifact.artifact_id
      artifact_type := artifact.artifact_type.value
      status := artifact.status.value
      created_at := artifact.created_at
      updated_at := artifact.updated_at
      source_artifacts := artifact.source_artifacts
      processing_module := artifact.processing_module
      processing_version := artifact.processing_version
      file_path := artifact.file_path
      file_size := artifact.file_size
      checksum := artifact.checksum
      metadata := artifact.metadata
      error_message := artifact.error_message }) :: dir

/-- The body of `load_metadata` (storage.py lines 150-165) on a present
document: reconstructs the dataclass.  `ArtifactType(...)` and
`ArtifactStatus(...)` raise a `ValueError` on an unrecognized string
(`.error`); `Path(data["file_path"]) if data["file_path"] else None`
maps both null and the (unreachable for saved docs) empty string
to `None`. -/
def decodeDoc (doc : MetadataDoc) : Except String ArtifactMetadata :=
  match ArtifactType.ofValue doc.artifact_type with
  | none => .error ((doc.artifact_type) ++ " is not a valid ArtifactType")
  | some t =>
    match ArtifactStatus.ofValue doc.status with
    | none => .error ((doc.status) ++ " is not a valid ArtifactStatus")
    | some st =>
      .ok
        { artifact_id := doc.artifact_id
          artifact_type := t
          status := st
          created_at := doc.created_at
          updated_at := doc.updated_at
          source_artifacts := doc.source_artifacts
          processing_module := doc.processing_module
          processing_version := doc.processing_version
          file_path :=
            match doc.file_path with
            | some p => if p = "" then none else some p
            | none => none
          file_size := doc.file_size
          checksum := doc.checksum
          metadata := doc.metadata
          error_message := doc.error_message }

/-- Python `load_metadata` (storage.py lines 133-167): absent file gives
`None` (`.ok none`), a present file is decoded, and an unrecognized
enum value raises (`.error`). -/
def load_metadata (dir : MetaDir) (artifact_id : String) :
    Except String (Option ArtifactMetadata) :=
  match dirFind dir artifact_id with
  | none => .ok none
  | some doc => (decodeDoc doc).map some

/-- Python `retrieve_artifact` (storage.py lines 89-101): returns the stored
path only when the metadata record loads, carries a `file_path` (a
`Path` object is always truthy, so the middle conjunct of
`if metadata and metadata.file_path and ...` is a null test), and the
referenced file still exists in the file system `fs` (the set of
existing paths). -/
def retrieve_artifact (dir : MetaDir) (fs : List String) (artifact_id : String) :
    Except String (Option String) :=
  match load_metadata dir artifact_id with
  | .error e => .error e
  | .ok none => .ok none
  | .ok (some m) =>
    match m.file_path with
    | none => .ok none
    | some p => if p ∈ fs then .ok (some p) else .ok none

/-- The facts about a source path that `store_artifact` consults:
whether the path is a symbolic link, whether its resolved form exists,
the resolved file name, the file size, its SHA-256 digest (kept
abstract), and whether the `shutil.copy2` call fails (carrying the
message of the raised `OSError`). -/
structure SourceFile where
  name : String
  is_symlink : Bool
  src_exists : Bool
  size : Nat
  sha256 : String
  copy_error : Option String

/-- Python `store_artifact` (storage.py lines 48-87): rejects symlinks, fails
for a missing resolved source, sanitizes the file name, copies the file
to `artifacts/<type>/<artifact_id>_<safe_filename>` (a failing copy
raises), sets `file_path`, `file_size` and `checksum` on the artifact,
saves the metadata and returns the storage path.  The returned triple
is the updated metadata directory, the updated artifact object and the
storage path. -/
def store_artifact (dir : MetaDir) (src : SourceFile) (artifact : ArtifactMetadata) :
    Except String (MetaDir × ArtifactMetadata × String) :=
  if src.is_symlink then .error ("Symlinks not allowed for security")
  else if !src.src_exists then .error ("Source file not found: " ++ src.name)
  else
    let safe_filename := sanitizeName src.name
    let storage_path :=
      "artifacts/" ++ artifact.artifact_type.value ++ "/" ++
        artifact.artifact_id ++ "_" ++ safe_filename
    match src.copy_error with
    | some e => .error e
    | none =>
      let a2 := { artifact with
        file_path := some storage_path
        file_size := some src.size
        checksum := some src.sha256 }
      .ok (save_metadata dir a2, a2, storage_path)

/-! ### manager.py -/

/-- The mutable state of an `ArtifactManager` together with the world
it touches: the metadata directory owned by its `ArtifactStorage`, the
logical sequence of audit entries written through its `AuditTrail`,
the `enable_audit` flag, the output-artifact list of the current
processing run (when one is active), the clock (`datetime.now()`), and
a supply counter standing for the fresh-uuid generator. -/
structure MState where
  dir : MetaDir
  audit_entries : List AuditEntry
  enable_audit : Bool
  current_run_outputs : Option (List String)
  clock : Nat
  supply : Nat

/-- Python `AuditTrail.log_operation` (audit.py lines 36-85) as seen from the
manager: constructs an entry with a fresh id and the current time and
appends it to the trail.  `details or` substitutes the empty dict. -/
def MState.logOp (s : MState) (operation action : String)
    (artifact_id user module : Option String) (details : Option Json)
    (success : Bool) (error_message : Option String) : MState :=
  { s with
    supply := s.supply + 1
    audit_entries := s.audit_entries ++
      [{ entry_id := toString s.supply
         timestamp := s.clock
         operation := operation
         artifact_id := artifact_id
         user := user
         module := module
         action := action
         details :=
           match details with
           | some d => d
           | none => Json.obj []
         success := success
         error_message := error_message }] }

/-- The `ArtifactMetadata(...)` construction at the top of
`create_artifact` (manager.py lines 135-141) with the dataclass
defaults of models.py: fresh id, pending status, both timestamps
stamped now, `or`-defaulted list and dict arguments. -/
def initialArtifact (s : MState) (new_id : String)
    (artifact_type : ArtifactType) (source_artifacts : Option (List String))
    (processing_module : Option String) (processing_version : Option String)
    (metadata : Option Json) : ArtifactMetadata :=
  { artifact_id := new_id
    artifact_type := artifact_type
    status := ArtifactStatus.pending
    created_at := s.clock
    updated_at := s.clock
    source_artifacts :=
      match source_artifacts with
      | some l => l
      | none => []
    processing_module := processing_module
    processing_version := processing_version
    file_path := none
    file_size := none
    checksum := none
    metadata :=
      match metadata with
      | some m => m
      | none => Json.obj []
    error_message := none }

/-- Python `create_artifact` (manager.py lines 106-185).  The fresh uuid4 is
modelled by the explicit `new_id` argument; the `isinstance` argument
validations are made moot by typing.  When a source file is given and
`store_artifact` raises, the artifact object is marked failed, a
failure audit entry is logged when auditing is enabled, and the
exception is re-raised: the result is `.error`, carrying the message
together with the (discarded by Python) failed artifact object so that
its final state is observable.  Otherwise the artifact is marked
completed (after `store_artifact` already saved its metadata; with no
source file the metadata is saved directly), the current run records
the new id, a creation entry is logged, and the artifact is returned. -/
def create_artifact (s : MState) (new_id : String)
    (artifact_type : ArtifactType) (source_path : Option SourceFile)
    (source_artifacts : Option (List String))
    (processing_module : Option String) (processing_version : Option String)
    (metadata : Option Json) :
    MState × Except (String × ArtifactMetadata) ArtifactMetadata :=
  let artifact : ArtifactMetadata :=
    initialArtifact s new_id artifact_type source_artifacts
      processing_module processing_version metadata
  let stored : MState × Except (String × ArtifactMetadata) ArtifactMetadata :=
    match source_path with
    | some sp =>
      match store_artifact s.dir sp artifact with
      | .error e =>
        let failed := artifact.update_status s.clock ArtifactStatus.failed (some e)
        let s2 :=
          if s.enable_audit then
            s.logOp ("artifact_storage") ("store") (some new_id) none
              processing_module none false (some e)
          else s
        (s2, .error (e, failed))
      | .ok (dir2, a2, _path) =>
        let a3 := a2.update_status s.clock ArtifactStatus.completed none
        ({ s with dir := dir2 }, .ok a3)
    | none =>
      let a3 := artifact.update_status s.clock ArtifactStatus.completed none
      ({ s with dir := save_metadata s.dir a3 }, .ok a3)
  match stored with
  | (s2, .error err) => (s2, .error err)
  | (s2, .ok a3) =>
    let s3 :=
      match s2.current_run_outputs with
      | some outs => { s2 with current_run_outputs := some (outs ++ [new_id]) }
      | none => s2
    let s4 :=
      if s.enable_audit then
        s3.logOp ("artifact_creation") ("create") (some new_id) none
          processing_module
          (some (Json.obj
            [("type", Json.str artifact_type.value),
             ("source_artifacts",
               match source_artifacts with
               | some l => Json.arr (l.map Json.str)
               | none => Json.null),
             ("has_file", Json.bool source_path.isSome)]))
          true none
      else s3
    (s4, .ok a3)

/-- Python `update_artifact_status` (manager.py lines 187-219): loads the
record (a decode failure propagates), silently returns when the id
does not resolve, otherwise applies `update_status` with the current
time, persists, and logs an `artifact_update` entry whose success flag
is `status != FAILED`. -/
def update_artifact_status (s : MState) (artifact_id : String)
    (status : ArtifactStatus) (error_message : Option String) :
    Except String MState :=
  match load_metadata s.dir artifact_id with
  | .error e => .error e
  | .ok none => .ok s
  | .ok (some artifact) =>
    let a2 := artifact.update_status s.clock status error_message
    let s2 := { s with dir := save_metadata s.dir a2 }
    let s3 :=
      if s.enable_audit then
        s2.logOp ("artifact_update") ("update_status") (some artifact_id)
          none none
          (some (Json.obj
            [("new_status", Json.str status.value),
             ("error_message",
               match error_message with
               | some m => Json.str m
               | none => Json.null)]))
          (status ≠ ArtifactStatus.failed) none
      else s2
    .ok s3

/-- A lineage tree as built by `get_artifact_lineage` (manager.py lines
323-356): an inner node carries the artifact id, the type and status
value strings, `created_at`, `processing_module` and the recursively
built `sources` list; a revisited id yields a `circular` leaf
(`circular_reference: True`) and an unresolvable id a `notFound` leaf
(`not_found: True`). -/
inductive LineageNode where
  | circular (artifact_id : String)
  | notFound (artifact_id : String)
  | node (artifact_id : String) (artifact_type : String) (status : String)
      (created_at : Nat) (processing_module : Option String)
      (sources : List LineageNode)

/-- The decoded artifact store that lineage traversal reads through
`get_artifact`: ids mapped to their (successfully loaded) metadata. -/
abbrev AStore : Type := List (String × ArtifactMetadata)

/-- Python `get_artifact` as used by the traversal: id lookup in the store. -/
def findArtifact : AStore → String → Option ArtifactMetadata
  | [], _ => none
  | (k, a) :: rest, id => if k = id then some a else findArtifact rest id

/-- Number of store keys not yet visited: the termination measure of
the lineage traversal (the visited set only ever grows, and strictly
gains a store key on every recursive descent). -/
def unvisitedCount (store : AStore) (visited : List String) : Nat :=
  ((store.map Prod.fst).filter fun k => !(decide (k ∈ visited))).length

/-- A filter by a stronger predicate keeps no more elements. -/
def filter_imp_le (l : List String) (p q : String → Bool)
    (h : ∀ x, q x = true → p x = true) :
    (l.filter q).length ≤ (l.filter p).length := by
  induction l with
  | nil => simp
  | cons a l ih =>
    have H := ih
    cases hq : q a with
    | true =>
      have hp := h a hq
      simp [List.filter_cons, hq, hp]
      omega
    | false =>
      cases hp : p a with
      | true =>
        simp [List.filter_cons, hq, hp]
        omega
      | false =>
        simpa [List.filter_cons, hq, hp] using H

/-- A filter by a strictly stronger predicate (failing on a present
element the weak one keeps) keeps strictly fewer elements. -/
def filter_imp_lt (l : List String) (p q : String → Bool) (aid : String)
    (h : ∀ x, q x = true → p x = true) (hmem : aid ∈ l)
    (hp : p aid = true) (hq : q aid = false) :
    (l.filter q).length < (l.filter p).length := by
  induction l with
  | nil => cases hmem
  | cons a l ih =>
    rcases List.mem_cons.mp hmem with rfl | hmem2
    · have hle := filter_imp_le l p q h
      simp [List.filter_cons, hp, hq]
      omega
    · cases hqa : q a with
      | true =>
        have hpa := h a hqa
        have H := ih hmem2
        simp [List.filter_cons, hqa, hpa]
        omega
      | false =>
        cases hpa : p a with
        | true =>
          have H := ih hmem2
          simp [List.filter_cons, hqa, hpa]
          omega
        | false =>
          simpa [List.filter_cons, hqa, hpa] using ih hmem2

/-- A successful `findArtifact` lookup means the id is a store key. -/
def findArtifact_mem (store : AStore) (aid : String) (a : ArtifactMetadata)
    (h : findArtifact store aid = some a) : aid ∈ store.map Prod.fst := by
  induction store with
  | nil => cases h
  | cons kv rest ih =>
    rcases kv with ⟨k, b⟩
    by_cases hk : k = aid
    · subst hk
      exact List.mem_cons_self _ _
    · rw [findArtifact, if_neg hk] at h
      exact List.mem_cons_of_mem _ (ih h)

/-- The recursive worker of `get_artifact_lineage` (manager.py lines
332-354), processing a work list of sibling ids left to right.  The
Python `visited` is one shared, mutated set: each call both consults
and extends it, so the state is threaded explicitly and a call returns
the grown set alongside the built nodes.  `visited.add(aid)` happens
before the `get_artifact` lookup, hence the id joins the set even when
it does not resolve.  After a subtree returns `rs.2`, the shared set
already contains `aid :: visited`; appending keeps that containment
syntactic for the termination argument (it does not change the set). -/
def buildLineageList (store : AStore) :
    List String → List String → List LineageNode × List String
  | [], visited => ([], visited)
  | aid :: rest, visited =>
    if h1 : aid ∈ visited then
      let r := buildLineageList store rest visited
      (LineageNode.circular aid :: r.1, r.2)
    else
      match h2 : findArtifact store aid with
      | none =>
        let r := buildLineageList store rest (aid :: visited)
        (LineageNode.notFound aid :: r.1, r.2)
      | some a =>
        let rs := buildLineageList store a.source_artifacts (aid :: visited)
        let r := buildLineageList store rest (rs.2 ++ aid :: visited)
        (LineageNode.node aid a.artifact_type.value a.status.value
            a.created_at a.processing_module rs.1 :: r.1, r.2)
termination_by ids visited => (unvisitedCount store visited, ids.length)
decreasing_by
  · apply Prod.Lex.right
    simp only [List.length_cons]
    omega
  · have hle : unvisitedCount store (aid :: visited) ≤ unvisitedCount store visited := by
      unfold unvisitedCount
      apply filter_imp_le
      intro x hx
      simp only [Bool.not_eq_true', decide_eq_false_iff_not] at hx ⊢
      exact fun hxv => hx (List.mem_cons_of_mem _ hxv)
    rcases Nat.lt_or_eq_of_le hle with hlt | heq
    · exact Prod.Lex.left _ _ hlt
    · rw [heq]
      apply Prod.Lex.right
      simp only [List.length_cons]
      omega
  · apply Prod.Lex.left
    unfold unvisitedCount
    apply filter_imp_lt _ _ _ aid
    · intro x hx
      simp only [Bool.not_eq_true', decide_eq_false_iff_not] at hx ⊢
      exact fun hxv => hx (List.mem_cons_of_mem _ hxv)
    · exact findArtifact_mem store aid a h2
    · simp only [Bool.not_eq_true', decide_eq_false_iff_not]
      exact h1
    · simp
  · have hle : unvisitedCount store (rs.2 ++ aid :: visited) ≤
        unvisitedCount store visited := by
      unfold unvisitedCount
      apply filter_imp_le
      intro x hx
      simp only [Bool.not_eq_true', decide_eq_false_iff_not] at hx ⊢
      exact fun hxv => hx (List.mem_append_right _ (List.mem_cons_of_mem _ hxv))
    rcases Nat.lt_or_eq_of_le hle with hlt | heq
    · exact Prod.Lex.left _ _ hlt
    · rw [heq]
      apply Prod.Lex.right
      simp only [List.length_cons]
      omega

/-- Python `get_artifact_lineage` (manager.py lines 323-356): runs the worker
on the root id with an empty visited set.  The worker returns one node
per input id, so the fallback arm is unreachable. -/
def get_artifact_lineage (store : AStore) (artifact_id : String) : LineageNode :=
  match buildLineageList store [artifact_id] [] with
  | (n :: _, _) => n
  | ([], _) => LineageNode.notFound artifact_id

/-! ### audit.py -/

/-- Audit log file names: `monthly ym` stands for `audit_<ym>.jsonl`
and `rotated ym n` for `audit_<ym>.<n>.jsonl`.  The string rendering
of these names is injective, so the names are modelled by this
inductive directly. -/
inductive LogName where
  | monthly (ym : String)
  | rotated (ym : String) (n : Nat)
deriving DecidableEq

/-- The audit directory: log file names mapped to their entry lists. -/
abbrev AuditFS : Type := List (LogName × List AuditEntry)

/-- The set of existing file names. -/
def fsNames (fs : AuditFS) : List LogName := fs.map Prod.fst

/-- Content of a file, `none` when it does not exist. -/
def fsLookup : AuditFS → LogName → Option (List AuditEntry)
  | [], _ => none
  | (k, c) :: rest, n => if k = n then some c else fsLookup rest n

/-- Delete a file name from the directory. -/
def fsErase (fs : AuditFS) (n : LogName) : AuditFS :=
  fs.filter fun kv => !(decide (kv.1 = n))

/-- Append one entry to a file, creating the file when absent
(`open(self.current_log, 'a')`). -/
def fsAppendEntry (fs : AuditFS) (n : LogName) (e : AuditEntry) : AuditFS :=
  match fsLookup fs n with
  | some _ => fs.map fun kv => if kv.1 = n then (kv.1, kv.2 ++ [e]) else kv
  | none => fs ++ [(n, [e])]

/-- The state of an `AuditTrail` (audit.py lines 17-29): the log
directory, the year-month stamp of `self.current_log` (which is always
a monthly name, set by `_get_current_log_path`), the configured
`rotation_size_mb`, and the `%Y%m` rendering of the current clock. -/
structure TrailState where
  files : AuditFS
  current : String
  rotation_size_mb : Nat
  clock_ym : String

/-- Size in bytes of a log file, given the length `esize e` of the
serialized JSON line of each entry. -/
def fileSize (esize : AuditEntry → Nat) (c : List AuditEntry) : Nat :=
  (c.map esize).sum

/-- Python `_should_rotate` (audit.py lines 103-109): the current log exists
and `size / (1024*1024) >= rotation_size_mb`.  The float division of a
byte count below `2^53` by `2^20` is exact in IEEE double precision,
so the comparison equals the integer comparison
`rotation_size_mb * 1048576 <= size`. -/
def should_rotate (esize : AuditEntry → Nat) (s : TrailState) : Bool :=
  match fsLookup s.files (LogName.monthly s.current) with
  | none => false
  | some c => s.rotation_size_mb * 1048576 ≤ fileSize esize c

/-- The `while` loop of `_rotate_log` (audit.py lines 117-123): starting
at 1, the first suffix `n` with `<stem>.<n>.jsonl` not on disk.  The
loop inspects at most `names.length + 1` candidates before finding a
free one, so that fuel suffices. -/
def nextRotationGo (names : List LogName) (ym : String) : Nat → Nat → Nat
  | n, 0 => n
  | n, fuel+1 =>
    if LogName.rotated ym n ∈ names then nextRotationGo names ym (n+1) fuel else n

/-- The rotation number chosen by `_rotate_log`. -/
def nextRotationNum (names : List LogName) (ym : String) : Nat :=
  nextRotationGo names ym 1 (names.length + 1)

/-- Python `_rotate_log` (audit.py lines 111-130): if the current log does not
exist, do nothing; otherwise rename it to the first unused rotation
suffix and point `current_log` at the fresh monthly file named from
the current clock (`_get_current_log_path`). -/
def rotate_log (s : TrailState) : TrailState :=
  match fsLookup s.files (LogName.monthly s.current) with
  | none => s
  | some c =>
    let n := nextRotationNum (fsNames s.files) s.current
    { s with
      files := fsErase s.files (LogName.monthly s.current) ++
        [(LogName.rotated s.current n, c)]
      current := s.clock_ym }

/-- Python `_write_entry` (audit.py lines 87-101): under the trail lock,
rotate when `_should_rotate`, then append the entry as one JSON line
to the current log. -/
def write_entry (esize : AuditEntry → Nat) (s : TrailState) (e : AuditEntry) :
    TrailState :=
  let s1 := if should_rotate esize s then rotate_log s else s
  { s1 with files := fsAppendEntry s1.files (LogName.monthly s1.current) e }

/-- One line of a log file as read back by `query_audit_trail`: either
a parseable entry or garbage that raises `json.JSONDecodeError`. -/
inductive LogLine where
  | good (e : AuditEntry)
  | bad (raw : String)

/-- The keyword filters of `query_audit_trail` (audit.py lines
132-141). -/
structure QueryFilters where
  start_time : Option Nat
  end_time : Option Nat
  operation : Option String
  action : Option String
  artifact_id : Option String
  user : Option String
  module : Option String
  success : Option Bool
  limit : Option Nat

/-- The filter cascade of `query_audit_trail` (audit.py lines 169-185)
on one parsed entry.  The string filters are guarded by Python
truthiness (`if operation and ...`), so a supplied empty string
disables that filter; the `success` filter uses an explicit
`is not None` test; datetime objects are always truthy. -/
def passesFilters (fl : QueryFilters) (e : AuditEntry) : Bool :=
  (match fl.start_time with
   | some t => !(decide (e.timestamp < t))
   | none => true) &&
  (match fl.end_time with
   | some t => !(decide (t < e.timestamp))
   | none => true) &&
  (match fl.operation with
   | some x => if x = "" then true else e.operation = x
   | none => true) &&
  (match fl.action with
   | some x => if x = "" then true else e.action = x
   | none => true) &&
  (match fl.artifact_id with
   | some x => if x = "" then true else e.artifact_id = some x
   | none => true) &&
  (match fl.user with
   | some x => if x = "" then true else e.user = some x
   | none => true) &&
  (match fl.module with
   | some x => if x = "" then true else e.module = some x
   | none => true) &&
  (match fl.success with
   | some b => e.success = b
   | none => true)

/-- Python `if limit and len(entries) >= limit` (audit.py line 189): truthy
limit (non-null, nonzero) reached. -/
def limitReached (fl : QueryFilters) (n : Nat) : Bool :=
  match fl.limit with
  | some l => if l = 0 then false else l ≤ n
  | none => false

/-- Line loop of `query_audit_trail` over one file: skips unparsable
lines, accumulates passing entries, and signals early return when the
limit is reached. -/
def queryLines (fl : QueryFilters) :
    List AuditEntry → List LogLine → List AuditEntry × Bool
  | acc, [] => (acc, false)
  | acc, LogLine.bad _ :: rest => queryLines fl acc rest
  | acc, LogLine.good e :: rest =>
    if passesFilters fl e then
      let acc2 := acc ++ [e]
      if limitReached fl acc2.length then (acc2, true)
      else queryLines fl acc2 rest
    else queryLines fl acc rest

/-- File loop of `query_audit_trail`: the input lists the log files in
the `sorted(..., reverse=True)` order the code reads them. -/
def queryFiles (fl : QueryFilters) :
    List AuditEntry → List (List LogLine) → List AuditEntry
  | acc, [] => acc
  | acc, f :: rest =>
    match queryLines fl acc f with
    | (acc2, true) => acc2
    | (acc2, false) => queryFiles fl acc2 rest

/-- Python `query_audit_trail` (audit.py lines 132-196). -/
def query_audit_trail (files : List (List LogLine)) (fl : QueryFilters) :
    List AuditEntry :=
  queryFiles fl [] files

/-- Query filters with nothing supplied. -/
def noFilters : QueryFilters :=
  { start_time := none
    end_time := none
    operation := none
    action := none
    artifact_id := none
    user := none
    module := none
    success := none
    limit := none }

/-- A file written by `export_audit_trail`: a pretty-printed JSON array
of the entries, or a CSV table whose header is the key list of the
first entry (every entry dict has the same fixed key set). -/
inductive ExportDoc where
  | jsonArr (entries : List AuditEntry)
  | csvTable (header : List String) (entries : List AuditEntry)

/-- The export directory: output paths mapped to written documents. -/
abbrev OutFS : Type := List (String × ExportDoc)

/-- Overwrite (`open(output_path, 'w')`) an output file. -/
def outWrite (fs : OutFS) (path : String) (doc : ExportDoc) : OutFS :=
  (path, doc) :: fs.filter fun kv => !(decide (kv.1 = path))

/-- The key set of an `AuditEntry.to_dict` (models.py lines 74-87),
used as the CSV header. -/
def entryKeys : List String :=
  ["entry_id", "timestamp", "operation", "artifact_id", "user",
   "module", "action", "details", "success", "error_message"]

/-- Python `export_audit_trail` (audit.py lines 253-285): queries the time
range, then writes JSON (always, even for zero entries: an empty
array), or CSV only when the entry list is non-empty (`if entries:`),
or raises for an unsupported format.  The output path is returned in
every non-raising case. -/
def export_audit_trail (files : List (List LogLine)) (outFS : OutFS)
    (output_path : String) (start_time end_time : Option Nat)
    (format : String) : Except String (OutFS × String) :=
  let entries := query_audit_trail files
    { noFilters with start_time := start_time, end_time := end_time }
  if format = "json" then
    .ok (outWrite outFS output_path (ExportDoc.jsonArr entries), output_path)
  else if format = "csv" then
    match entries with
    | [] => .ok (outFS, output_path)
    | _ :: _ =>
      .ok (outWrite outFS output_path (ExportDoc.csvTable entryKeys entries),
        output_path)
  else
    .error ("Unsupported export format: " ++ format)

/-! ### Reference definition from the specification wording -/

/-- Filename sanitization as the specification words it: replace every
character outside the class `[A-Za-z0-9_.-]` (code points `0x41`-`0x5A`,
`0x61`-`0x7A`, `0x30`-`0x39`, `0x5F`, `0x2E`, `0x2D`) with `_` and cap
at 100 characters.  This reference definition is compared against the
source embedding `sanitizeChars`. -/
def specSanitizeChars (name : List Char) : List Char :=
  (name.map fun c =>
    if (0x41 ≤ c.toNat && c.toNat ≤ 0x5A) ||
        (0x61 ≤ c.toNat && c.toNat ≤ 0x7A) ||
        (0x30 ≤ c.toNat && c.toNat ≤ 0x39) ||
        c.toNat = 0x5F || c.toNat = 0x2E || c.toNat = 0x2D
    then c else '_').take 100

/-! ### Concrete states used by witnesses and counterexamples -/

/-- A minimal artifact record to build concrete examples from. -/
def baseArtifact : ArtifactMetadata :=
  { artifact_id := ""
    artifact_type := ArtifactType.metadata
    status := ArtifactStatus.pending
    created_at := 0
    updated_at := 0
    source_artifacts := []
    processing_module := none
    processing_version := none
    file_path := none
    file_size := none
    checksum := none
    metadata := Json.obj []
    error_message := none }

/-- Artifact `A` listing `B` as its source. -/
def artA : ArtifactMetadata :=
  { baseArtifact with artifact_id := "A", source_artifacts := ["B"] }

/-- Artifact `B` listing `A` as its source: a true two-cycle with
`artA`. -/
def artB : ArtifactMetadata :=
  { baseArtifact with artifact_id := "B", source_artifacts := ["A"] }

/-- A store holding the two-cycle `A -> B -> A`. -/
def cycleStore : AStore := [("A", artA), ("B", artB)]

/-- Diamond store: `A` derives from `B` and `C`, which both derive
from the shared ancestor `D` (no true cycle). -/
def diamondStore : AStore :=
  [("A", { baseArtifact with artifact_id := "A", source_artifacts := ["B", "C"] }),
   ("B", { baseArtifact with artifact_id := "B", source_artifacts := ["D"] }),
   ("C", { baseArtifact with artifact_id := "C", source_artifacts := ["D"] }),
   ("D", { baseArtifact with artifact_id := "D" })]

/-- A manager state with auditing enabled and an empty store. -/
def mgr0 : MState :=
  { dir := []
    audit_entries := []
    enable_audit := true
    current_run_outputs := none
    clock := 5
    supply := 0 }

/-- A readable, existing, non-symlink source file whose copy fails
with an exception whose message is the empty string (for example
`raise OSError()` carries the empty message). -/
def emptyMsgSource : SourceFile :=
  { name := "v.mp4"
    is_symlink := false
    src_exists := true
    size := 10
    sha256 := "h"
    copy_error := some ("") }

/-- Like `emptyMsgSource` but failing with a non-empty message. -/
def boomSource : SourceFile :=
  { name := "v.mp4"
    is_symlink := false
    src_exists := true
    size := 10
    sha256 := "h"
    copy_error := some ("disk full") }

/-- A symbolic link whose target exists. -/
def liveLink : SourceFile :=
  { name := "link.mp4"
    is_symlink := true
    src_exists := true
    size := 3
    sha256 := "h2"
    copy_error := none }

/-- A symbolic link whose target is dangling. -/
def deadLink : SourceFile :=
  { name := "link.mp4"
    is_symlink := true
    src_exists := false
    size := 0
    sha256 := ""
    copy_error := none }

/-- The `error_message` of the failed artifact object that
`create_artifact` builds when storing `emptyMsgSource` raises an
exception whose message is empty (`none` inside `some` means the field
was left unset). -/
def c1FailedErrorMsg : Option (Option String) :=
  match (create_artifact mgr0 ("a1") ArtifactType.video_raw
      (some emptyMsgSource) none none none none).2 with
  | .error (_, fa) => some fa.error_message
  | .ok _ => none

/-- A stored metadata document of a previously failed artifact `a1`
carrying `error_message = "boom"`. -/
def failedDoc : MetadataDoc :=
  { artifact_id := "a1"
    artifact_type := "metadata"
    status := "failed"
    created_at := 0
    updated_at := 3
    source_artifacts := []
    processing_module := none
    processing_version := none
    file_path := none
    file_size := none
    checksum := none
    metadata := Json.obj []
    error_message := some ("boom") }

/-- A manager whose store holds only `failedDoc`. -/
def mgrFailed : MState :=
  { dir := [("a1", failedDoc)]
    audit_entries := []
    enable_audit := true
    current_run_outputs := none
    clock := 5
    supply := 0 }

/-- The stored `error_message` of `a1` after
`update_artifact_status(a1, COMPLETED)` with no error message
supplied: the observable the C6 counterexample inspects. -/
def c6ErrorAfterUpdate : Option (Option String) :=
  match update_artifact_status mgrFailed ("a1") ArtifactStatus.completed none with
  | .ok s2 =>
    match load_metadata s2.dir ("a1") with
    | .ok (some a) => some a.error_message
    | _ => none
  | .error _ => none

/-- A stored metadata document whose artifact has a physical file at
`artifacts/video_raw/a2_v.mp4`. -/
def storedDoc : MetadataDoc :=
  { artifact_id := "a2"
    artifact_type := "video_raw"
    status := "completed"
    created_at := 1
    updated_at := 2
    source_artifacts := []
    processing_module := none
    processing_version := none
    file_path := some ("artifacts/video_raw/a2_v.mp4")
    file_size := some 10
    checksum := some ("h")
    metadata := Json.obj []
    error_message := none }

/-- A metadata directory holding only `storedDoc`. -/
def storedDir : MetaDir := [("a2", storedDoc)]

/-- A parseable audit entry whose `artifact_id` field is null (for
example the `processing_run`/`start` entries the manager writes). -/
def nullIdEntry : AuditEntry :=
  { entry_id := "e1"
    timestamp := 0
    operation := "processing_run"
    artifact_id := none
    user := none
    module := none
    action := "start"
    details := Json.obj []
    success := true
    error_message := none }

/-- A parseable audit entry about artifact `a1`. -/
def a1Entry : AuditEntry :=
  { entry_id := "e2"
    timestamp := 1
    operation := "artifact_creation"
    artifact_id := some ("a1")
    user := none
    module := none
    action := "create"
    details := Json.obj []
    success := true
    error_message := none }

/-- A serialized-line length function making every entry one mebibyte
long. -/
def bigLine : AuditEntry → Nat := fun _ => 1048576

/-- A trail in month `202501` whose active log holds one entry and a
threshold of 1 MB, observed in month `202502`: the next append must
rotate. -/
def fullTrail : TrailState :=
  { files := [(LogName.monthly ("202501"), [nullIdEntry])]
    current := "202501"
    rotation_size_mb := 1
    clock_ym := "202502" }

/-- The entries of one log file that a limitless query keeps: parseable
lines passing the filters, in file order. -/
def matchedEntries (fl : QueryFilters) (lines : List LogLine) : List AuditEntry :=
  lines.filterMap fun l =>
    match l with
    | LogLine.good e => if passesFilters fl e then some e else none
    | LogLine.bad _ => none

/-- Query filters with only `artifact_id` supplied. -/
def artifactFilter (x : String) : QueryFilters :=
  { noFilters with artifact_id := some x }

/-- The artifact that `storedDoc` decodes to. -/
def storedArtifact : ArtifactMetadata :=
  { artifact_id := "a2"
    artifact_type := ArtifactType.video_raw
    status := ArtifactStatus.completed
    created_at := 1
    updated_at := 2
    source_artifacts := []
    processing_module := none
    processing_version := none
    file_path := some ("artifacts/video_raw/a2_v.mp4")
    file_size := some 10
    checksum := some ("h")
    metadata := Json.obj []
    error_message := none }

/-- The artifact that `failedDoc` decodes to: status failed, a stale
`error_message` of `boom`. -/
def c6Before : ArtifactMetadata :=
  { artifact_id := "a1"
    artifact_type := ArtifactType.metadata
    status := ArtifactStatus.failed
    created_at := 0
    updated_at := 3
    source_artifacts := []
    processing_module := none
    processing_version := none
    file_path := none
    file_size := none
    checksum := none
    metadata := Json.obj []
    error_message := some ("boom") }

/-! ### Helper lemmas -/

/-- Every enum member round-trips through its value string. -/
theorem ofValue_value_type (t : ArtifactType) :
    ArtifactType.ofValue t.value = some t := by
  cases t <;> rfl

/-- Every status member round-trips through its value string. -/
theorem ofValue_value_status (st : ArtifactStatus) :
    ArtifactStatus.ofValue st.value = some st := by
  cases st <;> rfl

/-- Below code point 128, the class kept by the source sanitizer is
exactly the class `[A-Za-z0-9_.-]` of the specification. -/
theorem sanitize_cond_eq (c : Char) (h : c.toNat < 128) :
    (pyIsWordChar c || c.toNat = 0x2D || c.toNat = 0x2E) =
      ((0x41 ≤ c.toNat && c.toNat ≤ 0x5A) ||
        (0x61 ≤ c.toNat && c.toNat ≤ 0x7A) ||
        (0x30 ≤ c.toNat && c.toNat ≤ 0x39) ||
        c.toNat = 0x5F || c.toNat = 0x2E || c.toNat = 0x2D) := by
  apply Bool.eq_iff_iff.mpr
  simp only [pyIsWordChar, Bool.or_eq_true, Bool.and_eq_true, decide_eq_true_eq]
  omega

/-- The sanitized name is the input length capped at 100. -/
theorem sanitize_len (name : List Char) :
    (sanitizeChars name).length = min name.length 100 := by
  simp only [sanitizeChars]
  split
  · next hl => simp only [List.length_take, List.length_map] at *; omega
  · next hl => simp only [List.length_map, gt_iff_lt, not_lt] at *; omega

/-- On ASCII names, the source sanitizer is the sanitizer of the
specification wording. -/
theorem sanitize_ascii (name : List Char) (h : ∀ c ∈ name, c.toNat < 128) :
    sanitizeChars name = specSanitizeChars name := by
  simp only [sanitizeChars, specSanitizeChars]
  have hmap :
      (name.map fun c =>
        if pyIsWordChar c || c.toNat = 0x2D || c.toNat = 0x2E then c else '_') =
      (name.map fun c =>
        if (0x41 ≤ c.toNat && c.toNat ≤ 0x5A) ||
            (0x61 ≤ c.toNat && c.toNat ≤ 0x7A) ||
            (0x30 ≤ c.toNat && c.toNat ≤ 0x39) ||
            c.toNat = 0x5F || c.toNat = 0x2E || c.toNat = 0x2D
        then c else '_') := by
    apply List.map_congr_left
    intro c hc
    rw [sanitize_cond_eq c (h c hc)]
  rw [hmap]
  split
  · rfl
  · next hl =>
    rw [List.take_of_length_le]
    simp only [List.length_map, gt_iff_lt, not_lt] at hl
    simpa using hl

/-- Loading through a present document is decoding that document. -/
theorem load_eq_decode (dir : MetaDir) (id : String) (doc : MetadataDoc)
    (hfind : dirFind dir id = some doc) :
    load_metadata dir id = (decodeDoc doc).map some := by
  unfold load_metadata
  rw [hfind]

/-- A loaded artifact never carries the empty string as `file_path`
(the decoder maps it to null, and the string form of a `Path` is never
empty). -/
theorem loadedPath_ne (dir : MetaDir) (id : String) (a : ArtifactMetadata)
    (h : load_metadata dir id = .ok (some a)) : a.file_path ≠ some ("") := by
  cases hfind : dirFind dir id with
  | none =>
    unfold load_metadata at h
    rw [hfind] at h
    simp at h
  | some doc =>
    rw [load_eq_decode dir id doc hfind] at h
    cases hdec : decodeDoc doc with
    | error e => rw [hdec] at h; simp [Except.map] at h
    | ok b =>
      rw [hdec] at h
      simp only [Except.map] at h
      injection h with h
      injection h with h
      subst h
      unfold decodeDoc at hdec
      cases h1 : ArtifactType.ofValue doc.artifact_type with
      | none => rw [h1] at hdec; simp at hdec
      | some t =>
        rw [h1] at hdec
        cases h2 : ArtifactStatus.ofValue doc.status with
        | none => rw [h2] at hdec; simp at hdec
        | some st =>
          rw [h2] at hdec
          injection hdec with hdec
          subst hdec
          cases hfp : doc.file_path with
          | none => simp [hfp]
          | some p =>
            by_cases hp : p = "" <;> simp [hfp, hp]

/-- Saving and loading the same id round-trips the artifact, for any
artifact whose `file_path` is not the (unreachable for real paths)
empty string. -/
theorem roundtrip_aux (dir : MetaDir) (a : ArtifactMetadata)
    (h : a.file_path ≠ some ("")) :
    load_metadata (save_metadata dir a) a.artifact_id = .ok (some a) := by
  simp only [load_metadata, save_metadata, dirFind, if_pos]
  simp only [decodeDoc, ofValue_value_type, ofValue_value_status]
  cases hfp : a.file_path with
  | none =>
    simp only [Except.map]
    rw [← hfp]
  | some p =>
    have hp : ¬ (p = "") := by
      intro hp0
      exact h (by rw [hfp, hp0])
    simp only [Except.map, hp, if_neg]
    rw [← hfp]
    simp

/-- Retrieval result when loading raises. -/
theorem retrieve_err (dir : MetaDir) (fs : List String) (id e : String)
    (h : load_metadata dir id = .error e) :
    retrieve_artifact dir fs id = .error e := by
  unfold retrieve_artifact
  rw [h]

/-- Retrieval result when the metadata record is missing. -/
theorem retrieve_missing (dir : MetaDir) (fs : List String) (id : String)
    (h : load_metadata dir id = .ok none) :
    retrieve_artifact dir fs id = .ok none := by
  unfold retrieve_artifact
  rw [h]

/-- Retrieval result when the record carries no file path. -/
theorem retrieve_nopath (dir : MetaDir) (fs : List String) (id : String)
    (m : ArtifactMetadata) (h : load_metadata dir id = .ok (some m))
    (hfp : m.file_path = none) :
    retrieve_artifact dir fs id = .ok none := by
  unfold retrieve_artifact
  rw [h]
  simp only [hfp]

/-- Retrieval result when the record carries a file path: an existence
test on that path. -/
theorem retrieve_path (dir : MetaDir) (fs : List String) (id : String)
    (m : ArtifactMetadata) (q : String)
    (h : load_metadata dir id = .ok (some m)) (hfp : m.file_path = some q) :
    retrieve_artifact dir fs id =
      if q ∈ fs then .ok (some q) else .ok none := by
  unfold retrieve_artifact
  rw [h]
  simp only [hfp]

theorem fsLookup_not_mem (fs : AuditFS) (n : LogName) (h : n ∉ fsNames fs) :
    fsLookup fs n = none := by
  induction fs with
  | nil => rfl
  | cons kv rest ih =>
    rcases kv with ⟨k, c⟩
    have hk : ¬ (k = n) := by
      intro hk
      exact h (by simp [fsNames, hk])
    rw [fsLookup, if_neg hk]
    exact ih fun hm => h (List.mem_cons_of_mem _ hm)

theorem fsLookup_erase_ne (fs : AuditFS) (n m : LogName) (h : m ≠ n) :
    fsLookup (fsErase fs n) m = fsLookup fs m := by
  induction fs with
  | nil => rfl
  | cons kv rest ih =>
    rcases kv with ⟨k, c⟩
    by_cases hk : k = n
    · subst hk
      have hkm : ¬ (k = m) := fun hkm => h hkm.symm
      simp only [fsErase, List.filter_cons]
      rw [if_neg (by simp)]
      rw [fsLookup, if_neg hkm]
      simpa [fsErase] using ih
    · simp only [fsErase, List.filter_cons]
      rw [show (!(decide ((k, c).1 = n))) = true from by simp [hk]]
      rw [if_pos rfl]
      by_cases hkm : k = m
      · rw [fsLookup, if_pos hkm, fsLookup, if_pos hkm]
      · rw [fsLookup, if_neg hkm, fsLookup, if_neg hkm]
        simpa [fsErase] using ih

theorem fsLookup_erase_self (fs : AuditFS) (n : LogName) :
    fsLookup (fsErase fs n) n = none := by
  induction fs with
  | nil => rfl
  | cons kv rest ih =>
    rcases kv with ⟨k, c⟩
    by_cases hk : k = n
    · simp only [fsErase, List.filter_cons]
      rw [show (!(decide ((k, c).1 = n))) = false from by simp [hk]]
      rw [if_neg (by simp)]
      simpa [fsErase] using ih
    · simp only [fsErase, List.filter_cons]
      rw [show (!(decide ((k, c).1 = n))) = true from by simp [hk]]
      rw [if_pos rfl]
      rw [fsLookup, if_neg hk]
      simpa [fsErase] using ih

theorem fsLookup_append (fs1 fs2 : AuditFS) (m : LogName) :
    fsLookup (fs1 ++ fs2) m =
      (match fsLookup fs1 m with
       | some c => some c
       | none => fsLookup fs2 m) := by
  induction fs1 with
  | nil => rfl
  | cons kv rest ih =>
    rcases kv with ⟨k, c⟩
    by_cases hk : k = m
    · rw [List.cons_append, fsLookup, if_pos hk, fsLookup, if_pos hk]
    · rw [List.cons_append, fsLookup, if_neg hk, fsLookup, if_neg hk]
      exact ih

theorem fsLookup_map_upd (n : LogName) (e : AuditEntry) :
    ∀ (fs : AuditFS) (c : List AuditEntry), fsLookup fs n = some c →
      fsLookup (fs.map fun kv => if kv.1 = n then (kv.1, kv.2 ++ [e]) else kv) n
        = some (c ++ [e])
  | [], c, hl => by cases hl
  | (k, c2) :: rest, c, hl => by
    by_cases hk : k = n
    · rw [fsLookup, if_pos hk] at hl
      injection hl with hl
      subst hl
      simp only [List.map_cons]
      rw [show (if (k, c2).1 = n then ((k, c2).1, (k, c2).2 ++ [e]) else (k, c2))
          = (k, c2 ++ [e]) from by simp [hk]]
      rw [fsLookup, if_pos hk]
    · rw [fsLookup, if_neg hk] at hl
      simp only [List.map_cons]
      rw [show (if (k, c2).1 = n then ((k, c2).1, (k, c2).2 ++ [e]) else (k, c2))
          = (k, c2) from by simp [hk]]
      rw [fsLookup, if_neg hk]
      exact fsLookup_map_upd n e rest c hl

theorem fsLookup_map_upd_ne (n m : LogName) (e : AuditEntry) (h : m ≠ n) :
    ∀ fs : AuditFS,
      fsLookup (fs.map fun kv => if kv.1 = n then (kv.1, kv.2 ++ [e]) else kv) m
        = fsLookup fs m
  | [] => rfl
  | (k, c) :: rest => by
    simp only [List.map_cons]
    by_cases hk : k = n
    · rw [show (if (k, c).1 = n then ((k, c).1, (k, c).2 ++ [e]) else (k, c))
          = (k, c ++ [e]) from by simp [hk]]
      have hkm : ¬ (k = m) := fun hkm => h (by rw [← hkm, hk])
      rw [fsLookup, if_neg hkm, fsLookup, if_neg hkm]
      exact fsLookup_map_upd_ne n m e h rest
    · rw [show (if (k, c).1 = n then ((k, c).1, (k, c).2 ++ [e]) else (k, c))
          = (k, c) from by simp [hk]]
      by_cases hkm : k = m
      · rw [fsLookup, if_pos hkm, fsLookup, if_pos hkm]
      · rw [fsLookup, if_neg hkm, fsLookup, if_neg hkm]
        exact fsLookup_map_upd_ne n m e h rest

theorem fsAppendEntry_self (fs : AuditFS) (n : LogName) (e : AuditEntry) :
    fsLookup (fsAppendEntry fs n e) n =
      some ((fsLookup fs n).getD [] ++ [e]) := by
  unfold fsAppendEntry
  cases hl : fsLookup fs n with
  | none =>
    show fsLookup (fs ++ [(n, [e])]) n = some ((Option.getD none []) ++ [e])
    rw [fsLookup_append, hl, fsLookup, if_pos rfl]
    rfl
  | some c =>
    show fsLookup
        (fs.map fun kv => if kv.1 = n then (kv.1, kv.2 ++ [e]) else kv) n
      = some ((Option.getD (some c) []) ++ [e])
    exact fsLookup_map_upd n e fs c hl

theorem fsAppendEntry_ne (fs : AuditFS) (n m : LogName) (e : AuditEntry)
    (h : m ≠ n) :
    fsLookup (fsAppendEntry fs n e) m = fsLookup fs m := by
  unfold fsAppendEntry
  cases hl : fsLookup fs n with
  | none =>
    show fsLookup (fs ++ [(n, [e])]) m = fsLookup fs m
    rw [fsLookup_append]
    cases hm : fsLookup fs m with
    | none =>
      rw [fsLookup, if_neg (fun hnm => h hnm.symm)]
      rfl
    | some c => rfl
  | some c =>
    show fsLookup
        (fs.map fun kv => if kv.1 = n then (kv.1, kv.2 ++ [e]) else kv) m
      = fsLookup fs m
    exact fsLookup_map_upd_ne n m e h fs

theorem go_mem (names : List LogName) (ym : String) :
    ∀ (fuel n m : Nat), n ≤ m → m < nextRotationGo names ym n fuel →
      LogName.rotated ym m ∈ names := by
  intro fuel
  induction fuel with
  | zero =>
    intro n m h1 h2
    rw [nextRotationGo] at h2
    omega
  | succ fuel ih =>
    intro n m h1 h2
    rw [nextRotationGo] at h2
    by_cases hmem : LogName.rotated ym n ∈ names
    · rw [if_pos hmem] at h2
      by_cases hnm : n = m
      · exact hnm ▸ hmem
      · exact ih (n + 1) m (by omega) h2
    · rw [if_neg hmem] at h2
      omega

theorem go_found (names : List LogName) (ym : String) :
    ∀ (fuel n : Nat), nextRotationGo names ym n fuel = n + fuel ∨
      LogName.rotated ym (nextRotationGo names ym n fuel) ∉ names := by
  intro fuel
  induction fuel with
  | zero => intro n; left; rw [nextRotationGo]; omega
  | succ fuel ih =>
    intro n
    rw [nextRotationGo]
    by_cases hmem : LogName.rotated ym n ∈ names
    · rw [if_pos hmem]
      rcases ih (n + 1) with h | h
      · left; omega
      · right; exact h
    · rw [if_neg hmem]
      right; exact hmem

theorem nextRotation_unused (names : List LogName) (ym : String) :
    LogName.rotated ym (nextRotationNum names ym) ∉ names := by
  rcases go_found names ym (names.length + 1) 1 with heq | hnot
  · exfalso
    have hmem : ∀ m, 1 ≤ m → m < names.length + 2 →
        LogName.rotated ym m ∈ names := by
      intro m h1 h2
      exact go_mem names ym (names.length + 1) 1 m h1 (by rw [heq]; omega)
    have hsub : ((List.range (names.length + 1)).map
        fun i => LogName.rotated ym (i + 1)) ⊆ names := by
      intro x hx
      rcases List.mem_map.mp hx with ⟨i, hi, rfl⟩
      have := List.mem_range.mp hi
      exact hmem (i + 1) (by omega) (by omega)
    have hnd : ((List.range (names.length + 1)).map
        fun i => LogName.rotated ym (i + 1)).Nodup := by
      refine List.Nodup.map ?_ (List.nodup_range _)
      intro a b hab
      simp only [LogName.rotated.injEq] at hab
      omega
    have hle := (hnd.subperm hsub).length_le
    simp only [List.length_map, List.length_range] at hle
    omega
  · exact hnot

theorem nextRotation_min (names : List LogName) (ym : String) (m : Nat)
    (h1 : 0 < m) (h2 : m < nextRotationNum names ym) :
    LogName.rotated ym m ∈ names :=
  go_mem names ym (names.length + 1) 1 m h1 h2

theorem should_rotate_spec (esize : AuditEntry → Nat) (s : TrailState)
    (h : should_rotate esize s = true) :
    ∃ c, fsLookup s.files (LogName.monthly s.current) = some c ∧
      s.rotation_size_mb * 1048576 ≤ fileSize esize c := by
  unfold should_rotate at h
  cases hc : fsLookup s.files (LogName.monthly s.current) with
  | none => rw [hc] at h; cases h
  | some c =>
    rw [hc] at h
    exact ⟨c, rfl, by simpa using h⟩

theorem rot_ne_mon (ym ym2 : String) (n : Nat) :
    LogName.rotated ym n ≠ LogName.monthly ym2 := by
  intro h
  cases h

theorem mon_ne_rot (ym ym2 : String) (n : Nat) :
    LogName.monthly ym ≠ LogName.rotated ym2 n := by
  intro h
  cases h

theorem queryLines_no_limit (fl : QueryFilters) (hlim : fl.limit = none)
    (lines : List LogLine) :
    ∀ acc : List AuditEntry,
      queryLines fl acc lines = (acc ++ matchedEntries fl lines, false) := by
  induction lines with
  | nil => intro acc; simp [queryLines, matchedEntries]
  | cons l rest ih =>
    intro acc
    cases l with
    | bad r => simpa [queryLines, matchedEntries] using ih acc
    | good e =>
      by_cases hp : passesFilters fl e
      · have hlr : limitReached fl (acc ++ [e]).length = false := by
          simp [limitReached, hlim]
        rw [queryLines, if_pos hp]
        simp only [hlr, Bool.false_eq_true, if_false]
        rw [ih (acc ++ [e])]
        simp [matchedEntries, hp]
      · rw [queryLines, if_neg hp]
        rw [ih acc]
        simp [matchedEntries, hp]

theorem queryFiles_no_limit (fl : QueryFilters) (hlim : fl.limit = none)
    (files : List (List LogLine)) :
    ∀ acc : List AuditEntry,
      queryFiles fl acc files = acc ++ (files.map (matchedEntries fl)).flatten := by
  induction files with
  | nil => intro acc; simp [queryFiles]
  | cons f rest ih =>
    intro acc
    rw [queryFiles, queryLines_no_limit fl hlim f acc]
    show queryFiles fl (acc ++ matchedEntries fl f) rest = _
    rw [ih (acc ++ matchedEntries fl f)]
    simp [List.flatten]

theorem query_no_limit (files : List (List LogLine)) (fl : QueryFilters)
    (hlim : fl.limit = none) :
    query_audit_trail files fl = (files.map (matchedEntries fl)).flatten := by
  unfold query_audit_trail
  simpa using queryFiles_no_limit fl hlim files []

theorem passes_artifact_iff (x : String) (hx : x ≠ "") (e : AuditEntry) :
    passesFilters (artifactFilter x) e = true ↔ e.artifact_id = some x := by
  simp [passesFilters, artifactFilter, noFilters, hx]

/-! ### Claims -/

/-- C1 (amended): when the store operation raises with message `e`
during `create_artifact`, the call re-raises carrying message `e`, the
artifact object (not returned to the caller) is in failed status with
`error_message` set to `e` when `e` is non-empty and left unset when
`e` is empty, nothing is persisted, and with auditing enabled exactly
one failure audit entry (operation `artifact_storage`, action `store`,
success false, the message as `error_message`) is appended; with
auditing disabled the trail is unchanged. -/
theorem C1_create_artifact_storage_failure (s : MState) (new_id : String)
    (t : ArtifactType) (sp : SourceFile) (srcs : Option (List String))
    (pm pv : Option String) (md : Option Json) (e : String)
    (hstore : store_artifact s.dir sp
        (initialArtifact s new_id t srcs pm pv md) = .error e) :
    (create_artifact s new_id t (some sp) srcs pm pv md).2 =
      .error (e, (initialArtifact s new_id t srcs pm pv md).update_status
        s.clock ArtifactStatus.failed (some e)) ∧
    ((initialArtifact s new_id t srcs pm pv md).update_status s.clock
        ArtifactStatus.failed (some e)).status = ArtifactStatus.failed ∧
    ((initialArtifact s new_id t srcs pm pv md).update_status s.clock
        ArtifactStatus.failed (some e)).error_message =
      (if e = "" then none else some e) ∧
    (create_artifact s new_id t (some sp) srcs pm pv md).1.dir = s.dir ∧
    (s.enable_audit = true →
      (create_artifact s new_id t (some sp) srcs pm pv md).1.audit_entries =
        s.audit_entries ++
          [{ entry_id := toString s.supply
             timestamp := s.clock
             operation := "artifact_storage"
             artifact_id := some new_id
             user := none
             module := pm
             action := "store"
             details := Json.obj []
             success := false
             error_message := some e }]) ∧
    (s.enable_audit = false →
      (create_artifact s new_id t (some sp) srcs pm pv md).1.audit_entries =
        s.audit_entries) := by
  simp only [create_artifact]
  rw [hstore]
  refine ⟨?_, rfl, ?_, ?_, ?_, ?_⟩
  · cases hEA : s.enable_audit <;> simp [hEA]
  · simp [ArtifactMetadata.update_status, initialArtifact]
  · cases hEA : s.enable_audit <;> simp [hEA, MState.logOp]
  · intro hEA
    simp [hEA, MState.logOp]
  · intro hEA
    simp [hEA]

/-- C1 witness: with auditing enabled and a copy failing with message
`disk full`, the store is left untouched and exactly the failure entry
is appended. -/
theorem C1_create_artifact_storage_failure_witness :
    (create_artifact mgr0 ("a1") ArtifactType.video_raw (some boomSource)
        none none none none).1.dir = mgr0.dir ∧
    (create_artifact mgr0 ("a1") ArtifactType.video_raw (some boomSource)
        none none none none).1.audit_entries =
      mgr0.audit_entries ++
        [{ entry_id := "0"
           timestamp := 5
           operation := "artifact_storage"
           artifact_id := some ("a1")
           user := none
           module := none
           action := "store"
           details := Json.obj []
           success := false
           error_message := some ("disk full") }] := by
  have h := C1_create_artifact_storage_failure mgr0 ("a1")
    ArtifactType.video_raw boomSource none none none none ("disk full") rfl
  exact ⟨h.2.2.2.1, h.2.2.2.2.1 rfl⟩

/-- C1 counterexample: the claim says the failed artifact carries the
exception message as its `error_message`; when the raised message is
the empty string (for example a bare `OSError()`), the truthiness
guard in `update_status` leaves `error_message` unset (`some none`
here means: the run failed as expected, and the recorded field is
null), not the empty-string message the claim requires. -/
theorem C1_counterexample : c1FailedErrorMsg = some none := rfl

/-- C2 (amended): the stored name keeps every character that Python
regex `\w` (Unicode word character) or dash or dot matches and
replaces every other character with an underscore; the result, hence
its stem, is capped at 100 characters; and restricted to ASCII input
this is exactly the class `[A-Za-z0-9_.-]` of the claim. -/
theorem C2_sanitize_cap_and_ascii_class (name : List Char) :
    (sanitizeChars name).length = min name.length 100 ∧
    ((∀ c ∈ name, c.toNat < 128) →
      sanitizeChars name = specSanitizeChars name) :=
  ⟨sanitize_len name, fun h => sanitize_ascii name h⟩

/-- C2 witness: a two-character ASCII name with a space. -/
theorem C2_sanitize_cap_and_ascii_class_witness :
    (sanitizeChars ['a', ' ']).length = min 2 100 ∧
    sanitizeChars ['a', ' '] = specSanitizeChars ['a', ' '] :=
  ⟨(C2_sanitize_cap_and_ascii_class ['a', ' ']).1,
   (C2_sanitize_cap_and_ascii_class ['a', ' ']).2 (by decide)⟩

/-- C2 counterexample: the claim says every character outside
`[A-Za-z0-9_.-]` is replaced by an underscore, but the source pattern
uses Unicode `\w`: the letter with code point 233 (latin small e with
acute) is outside the ASCII class yet kept verbatim instead of being
replaced. -/
theorem C2_counterexample :
    sanitizeChars [Char.ofNat 233] = [Char.ofNat 233] ∧
    [Char.ofNat 233] ≠ ['_'] := by
  decide

/-- C3 (confirmed): retrieval returns a path exactly when the metadata
record loads, references that path, and the path exists in the file
system; and deleting the stored file out-of-band flips the same call
to the absent result (still `.ok`, no error). -/
theorem C3_retrieve_iff_record_and_file (dir : MetaDir) (fs : List String)
    (id : String) :
    (∀ p, retrieve_artifact dir fs id = .ok (some p) ↔
      ∃ m, load_metadata dir id = .ok (some m) ∧ m.file_path = some p ∧
        p ∈ fs) ∧
    (∀ p, retrieve_artifact dir fs id = .ok (some p) →
      retrieve_artifact dir (fs.filter fun q => !(decide (q = p))) id =
        .ok none) := by
  have main : ∀ fs2 p, retrieve_artifact dir fs2 id = .ok (some p) ↔
      ∃ m, load_metadata dir id = .ok (some m) ∧ m.file_path = some p ∧
        p ∈ fs2 := by
    intro fs2 p
    cases hload : load_metadata dir id with
    | error e =>
      rw [retrieve_err dir fs2 id e hload]
      constructor
      · intro hcontra; cases hcontra
      · rintro ⟨m, hm, -, -⟩
        cases hm
    | ok mo =>
      cases mo with
      | none =>
        rw [retrieve_missing dir fs2 id hload]
        constructor
        · intro hcontra; cases hcontra
        · rintro ⟨m, hm, -, -⟩
          simp at hm
      | some m =>
        cases hfp : m.file_path with
        | none =>
          rw [retrieve_nopath dir fs2 id m hload hfp]
          constructor
          · intro hcontra; cases hcontra
          · rintro ⟨m2, hm2, hfp2, -⟩
            injection hm2 with hm2
            injection hm2 with hm2
            subst hm2
            rw [hfp] at hfp2
            cases hfp2
        | some q =>
          rw [retrieve_path dir fs2 id m q hload hfp]
          by_cases hq : q ∈ fs2
          · rw [if_pos hq]
            constructor
            · intro hok
              injection hok with hok
              injection hok with hok
              subst hok
              exact ⟨m, rfl, hfp, hq⟩
            · rintro ⟨m2, hm2, hfp2, hmem⟩
              injection hm2 with hm2
              injection hm2 with hm2
              subst hm2
              rw [hfp] at hfp2
              injection hfp2 with hfp2
              rw [hfp2]
          · rw [if_neg hq]
            constructor
            · intro hcontra; cases hcontra
            · rintro ⟨m2, hm2, hfp2, hmem⟩
              injection hm2 with hm2
              injection hm2 with hm2
              subst hm2
              rw [hfp] at hfp2
              injection hfp2 with hfp2
              subst hfp2
              exact absurd hmem hq
  refine ⟨main fs, fun p hp => ?_⟩
  rcases (main fs p).mp hp with ⟨m, hm, hfp, hmem⟩
  have hnot : p ∉ fs.filter fun q => !(decide (q = p)) := by
    intro hmem2
    have := List.of_mem_filter hmem2
    simp at this
  rw [retrieve_path dir _ id m p hm hfp, if_neg hnot]

/-- C3 witness: a stored record whose file exists is retrieved; the
same store with the file deleted reports absent. -/
theorem C3_retrieve_iff_record_and_file_witness :
    retrieve_artifact storedDir ["artifacts/video_raw/a2_v.mp4"] ("a2") =
      .ok (some ("artifacts/video_raw/a2_v.mp4")) ∧
    retrieve_artifact storedDir
        (["artifacts/video_raw/a2_v.mp4"].filter
          fun q => !(decide (q = "artifacts/video_raw/a2_v.mp4"))) ("a2") =
      .ok none := by
  have h := C3_retrieve_iff_record_and_file storedDir
    ["artifacts/video_raw/a2_v.mp4"] ("a2")
  have h1 := (h.1 ("artifacts/video_raw/a2_v.mp4")).mpr
    ⟨storedArtifact, rfl, rfl, by simp⟩
  exact ⟨h1, h.2 ("artifacts/video_raw/a2_v.mp4") h1⟩

/-- C4 (confirmed): revisiting an id already in the shared visited set
yields a circular-reference leaf instead of recursing; the traversal
of the true two-cycle `A -> B -> A` terminates with the second visit
of `A` rendered as that leaf; and on the diamond (no true cycle) the
shared ancestor `D` is a full node in the first branch but a circular
leaf in the second, showing the visited set is shared across the whole
traversal rather than per branch. -/
theorem C4_lineage_cycle_and_shared_visited :
    (∀ (store : AStore) (aid : String) (rest visited : List String),
      aid ∈ visited →
      buildLineageList store (aid :: rest) visited =
        (LineageNode.circular aid ::
            (buildLineageList store rest visited).1,
          (buildLineageList store rest visited).2)) ∧
    get_artifact_lineage cycleStore ("A") =
      LineageNode.node ("A") ("metadata") ("pending") 0 none
        [LineageNode.node ("B") ("metadata") ("pending") 0 none
          [LineageNode.circular ("A")]] ∧
    get_artifact_lineage diamondStore ("A") =
      LineageNode.node ("A") ("metadata") ("pending") 0 none
        [LineageNode.node ("B") ("metadata") ("pending") 0 none
          [LineageNode.node ("D") ("metadata") ("pending") 0 none []],
         LineageNode.node ("C") ("metadata") ("pending") 0 none
          [LineageNode.circular ("D")]] := by
  refine ⟨?_, ?_, ?_⟩
  · intro store aid rest visited h
    rw [buildLineageList]
    simp [h]
  · simp [get_artifact_lineage, buildLineageList, findArtifact, cycleStore,
      artA, artB, baseArtifact, ArtifactType.value, ArtifactStatus.value]
  · simp [get_artifact_lineage, buildLineageList, findArtifact, diamondStore,
      baseArtifact, ArtifactType.value, ArtifactStatus.value]

/-- C4 witness: the general circular-leaf equation applied to the
cycle store with `A` already visited. -/
theorem C4_lineage_cycle_and_shared_visited_witness :
    buildLineageList cycleStore ["A"] ["A"] =
      (LineageNode.circular ("A") ::
          (buildLineageList cycleStore [] ["A"]).1,
        (buildLineageList cycleStore [] ["A"]).2) :=
  C4_lineage_cycle_and_shared_visited.1 cycleStore ("A") [] ["A"] (by simp)

/-- C5 (confirmed): a single append rotates exactly when the active
file has reached the threshold (`rotation_size_mb` mebibytes).  On a
crossing: the chosen suffix is the smallest unused one (it is unused
and every positive smaller suffix is in use), the old content is
intact under the rotated name (no data deleted), the fresh active file
is named from the current year-month and receives the entry, and every
other file is untouched.  Without a crossing nothing is renamed: the
entry lands in the active file and every other file is untouched. -/
theorem C5_rotation_per_crossing (esize : AuditEntry → Nat) (s : TrailState)
    (e : AuditEntry) :
    (should_rotate esize s = true →
      LogName.rotated s.current (nextRotationNum (fsNames s.files) s.current)
          ∉ fsNames s.files ∧
      (∀ m, 0 < m → m < nextRotationNum (fsNames s.files) s.current →
        LogName.rotated s.current m ∈ fsNames s.files) ∧
      fsLookup (write_entry esize s e).files
          (LogName.rotated s.current
            (nextRotationNum (fsNames s.files) s.current)) =
        fsLookup s.files (LogName.monthly s.current) ∧
      (write_entry esize s e).current = s.clock_ym ∧
      fsLookup (write_entry esize s e).files (LogName.monthly s.clock_ym) =
        some ((if s.clock_ym = s.current then ([] : List AuditEntry)
          else (fsLookup s.files (LogName.monthly s.clock_ym)).getD []) ++
            [e]) ∧
      (∀ name, name ≠ LogName.monthly s.current →
        name ≠ LogName.rotated s.current
          (nextRotationNum (fsNames s.files) s.current) →
        name ≠ LogName.monthly s.clock_ym →
        fsLookup (write_entry esize s e).files name =
          fsLookup s.files name)) ∧
    (should_rotate esize s = false →
      (write_entry esize s e).current = s.current ∧
      fsLookup (write_entry esize s e).files (LogName.monthly s.current) =
        some ((fsLookup s.files (LogName.monthly s.current)).getD [] ++
          [e]) ∧
      (∀ name, name ≠ LogName.monthly s.current →
        fsLookup (write_entry esize s e).files name =
          fsLookup s.files name)) := by
  constructor
  · intro hcross
    rcases should_rotate_spec esize s hcross with ⟨c, hc, -⟩
    have hw : write_entry esize s e =
        { files := fsAppendEntry
            (fsErase s.files (LogName.monthly s.current) ++
              [(LogName.rotated s.current
                  (nextRotationNum (fsNames s.files) s.current), c)])
            (LogName.monthly s.clock_ym) e
          current := s.clock_ym
          rotation_size_mb := s.rotation_size_mb
          clock_ym := s.clock_ym } := by
      unfold write_entry
      rw [if_pos hcross]
      unfold rotate_log
      rw [hc]
    have hbase_rot : fsLookup
        (fsErase s.files (LogName.monthly s.current) ++
          [(LogName.rotated s.current
              (nextRotationNum (fsNames s.files) s.current), c)])
        (LogName.rotated s.current
          (nextRotationNum (fsNames s.files) s.current)) = some c := by
      rw [fsLookup_append,
        fsLookup_erase_ne _ _ _ (rot_ne_mon _ _ _),
        fsLookup_not_mem _ _ (nextRotation_unused (fsNames s.files) s.current)]
      rw [fsLookup, if_pos rfl]
    refine ⟨nextRotation_unused (fsNames s.files) s.current,
      fun m h1 h2 => nextRotation_min (fsNames s.files) s.current m h1 h2,
      ?_, ?_, ?_, ?_⟩
    · rw [hw]
      show fsLookup (fsAppendEntry _ (LogName.monthly s.clock_ym) e) _ =
        fsLookup s.files (LogName.monthly s.current)
      rw [fsAppendEntry_ne _ _ _ _ (rot_ne_mon _ _ _), hbase_rot, hc]
    · rw [hw]
    · rw [hw]
      show fsLookup (fsAppendEntry _ (LogName.monthly s.clock_ym) e)
          (LogName.monthly s.clock_ym) = _
      rw [fsAppendEntry_self]
      by_cases hym : s.clock_ym = s.current
      · rw [if_pos hym, hym]
        rw [fsLookup_append, fsLookup_erase_self]
        rw [fsLookup, if_neg (rot_ne_mon _ _ _)]
        rfl
      · rw [if_neg hym]
        have hmm : LogName.monthly s.clock_ym ≠ LogName.monthly s.current := by
          intro h
          injection h with h
          exact hym h
        rw [fsLookup_append, fsLookup_erase_ne _ _ _ hmm]
        cases hx : fsLookup s.files (LogName.monthly s.clock_ym) with
        | none =>
          rw [fsLookup, if_neg (rot_ne_mon _ _ _)]
          rfl
        | some c2 => rfl
    · intro name hn1 hn2 hn3
      rw [hw]
      show fsLookup (fsAppendEntry _ (LogName.monthly s.clock_ym) e) name =
        fsLookup s.files name
      rw [fsAppendEntry_ne _ _ _ _ hn3]
      rw [fsLookup_append, fsLookup_erase_ne _ _ _ hn1]
      cases hx : fsLookup s.files name with
      | none =>
        rw [fsLookup, if_neg (fun h => hn2 h.symm)]
        rfl
      | some c2 => rfl
  · intro hcross
    have hw : write_entry esize s e =
        { files := fsAppendEntry s.files (LogName.monthly s.current) e
          current := s.current
          rotation_size_mb := s.rotation_size_mb
          clock_ym := s.clock_ym } := by
      unfold write_entry
      rw [if_neg (by rw [hcross]; exact Bool.false_ne_true)]
    refine ⟨?_, ?_, ?_⟩
    · rw [hw]
    · rw [hw]
      show fsLookup (fsAppendEntry s.files (LogName.monthly s.current) e)
        (LogName.monthly s.current) = _
      rw [fsAppendEntry_self]
    · intro name hn
      rw [hw]
      show fsLookup (fsAppendEntry s.files (LogName.monthly s.current) e) name =
        fsLookup s.files name
      rw [fsAppendEntry_ne _ _ _ _ hn]

/-- C5 witness: a 1 MB threshold, one mebibyte-long entry in the
January file, clock in February: the append rotates the full file to
suffix 1 and starts the February file with the new entry. -/
theorem C5_rotation_per_crossing_witness :
    fsLookup (write_entry bigLine fullTrail a1Entry).files
        (LogName.rotated ("202501") 1) = some [nullIdEntry] ∧
    (write_entry bigLine fullTrail a1Entry).current = "202502" ∧
    fsLookup (write_entry bigLine fullTrail a1Entry).files
        (LogName.monthly ("202502")) = some [a1Entry] := by
  have h := (C5_rotation_per_crossing bigLine fullTrail a1Entry).1 rfl
  exact ⟨h.2.2.1, h.2.2.2.1, h.2.2.2.2.1⟩

/-- C6 (amended): an `update_artifact_status` call on a resolvable id
persists the updated record and can be loaded back; `updated_at` never
decreases (it becomes the current clock, at least the stored value);
and `error_message` is overwritten exactly when the update supplies a
non-empty message, being left at its previous value when the update
supplies none (or the empty string). -/
theorem C6_update_status_monotone_and_message (s : MState) (id : String)
    (st : ArtifactStatus) (msg : Option String) (a : ArtifactMetadata)
    (hload : load_metadata s.dir id = .ok (some a))
    (hid : a.artifact_id = id)
    (hclock : a.updated_at ≤ s.clock) :
    ((update_artifact_status s id st msg).toOption.map fun s2 =>
        load_metadata s2.dir id) =
      some (.ok (some (a.update_status s.clock st msg))) ∧
    a.updated_at ≤ (a.update_status s.clock st msg).updated_at ∧
    (a.update_status s.clock st msg).error_message =
      (match msg with
       | some m => if m = "" then a.error_message else some m
       | none => a.error_message) := by
  have hfp : (a.update_status s.clock st msg).file_path ≠ some ("") := by
    have h0 := loadedPath_ne s.dir id a hload
    simpa [ArtifactMetadata.update_status] using h0
  have hid2 : (a.update_status s.clock st msg).artifact_id = id := by
    simpa [ArtifactMetadata.update_status] using hid
  refine ⟨?_, hclock, rfl⟩
  unfold update_artifact_status
  rw [hload]
  cases hEA : s.enable_audit with
  | false =>
    simp only [hEA, Bool.false_eq_true, if_false, Except.toOption, Option.map]
    rw [← hid2, roundtrip_aux s.dir _ hfp]
  | true =>
    simp only [hEA, if_true, MState.logOp, Except.toOption, Option.map]
    rw [← hid2, roundtrip_aux s.dir _ hfp]

/-- C6 witness: updating the stored failed artifact to in-progress
with the non-empty message `retry` persists the expected record, with
`updated_at` moved from 3 to the clock 5. -/
theorem C6_update_status_monotone_and_message_witness :
    ((update_artifact_status mgrFailed ("a1") ArtifactStatus.in_progress
        (some ("retry"))).toOption.map fun s2 => load_metadata s2.dir ("a1")) =
      some (.ok (some (c6Before.update_status 5 ArtifactStatus.in_progress
        (some ("retry"))))) ∧
    c6Before.updated_at ≤ (c6Before.update_status 5 ArtifactStatus.in_progress
      (some ("retry"))).updated_at := by
  have h := C6_update_status_monotone_and_message mgrFailed ("a1")
    ArtifactStatus.in_progress (some ("retry")) c6Before rfl rfl (by decide)
  exact ⟨h.1, h.2.1⟩

/-- C6 counterexample: the claim says `error_message` is set after the
call if and only if that update supplied one; updating the failed
artifact `a1` (stored message `boom`) to completed while supplying no
message leaves the stored `error_message` equal to `boom`, so the
field is set although this update supplied none. -/
theorem C6_counterexample : c6ErrorAfterUpdate = some (some ("boom")) := rfl

/-- C7 (confirmed): `store_artifact` on a symbolic-link source fails
with the security error, whatever the state of the link target
(existing or dangling) and of everything else. -/
theorem C7_store_rejects_symlink (dir : MetaDir) (src : SourceFile)
    (a : ArtifactMetadata) (h : src.is_symlink = true) :
    store_artifact dir src a =
      .error ("Symlinks not allowed for security") := by
  simp [store_artifact, h]

/-- C7 witness: both a live link and a dangling link are rejected with
the same security error. -/
theorem C7_store_rejects_symlink_witness :
    store_artifact [] liveLink baseArtifact =
      .error ("Symlinks not allowed for security") ∧
    store_artifact [] deadLink baseArtifact =
      .error ("Symlinks not allowed for security") :=
  ⟨C7_store_rejects_symlink [] liveLink baseArtifact rfl,
   C7_store_rejects_symlink [] deadLink baseArtifact rfl⟩

/-- C8 (amended): for a non-empty artifact id `x`, a query filtered
only by `artifact_id = x` returns exactly the parseable entries whose
`artifact_id` field equals `x`: every returned entry has that field,
and every parseable entry of every log file with that field is
returned.  (The empty string disables the filter: see the
counterexample.) -/
theorem C8_query_by_artifact_id (files : List (List LogLine)) (x : String)
    (hx : x ≠ "") :
    (∀ e ∈ query_audit_trail files (artifactFilter x),
      e.artifact_id = some x) ∧
    (∀ f ∈ files, ∀ e : AuditEntry, LogLine.good e ∈ f →
      e.artifact_id = some x →
      e ∈ query_audit_trail files (artifactFilter x)) := by
  rw [query_no_limit files _ rfl]
  constructor
  · intro e he
    rcases List.mem_flatten.mp he with ⟨le, hle, hee⟩
    rcases List.mem_map.mp hle with ⟨f, hf, rfl⟩
    rcases List.mem_filterMap.mp hee with ⟨l, hl, hmatch⟩
    cases l with
    | bad r => simp at hmatch
    | good e2 =>
      by_cases hp : passesFilters (artifactFilter x) e2
      · simp only [hp, if_pos] at hmatch
        injection hmatch with hmatch
        subst hmatch
        exact (passes_artifact_iff x hx e2).mp hp
      · simp [hp] at hmatch
  · intro f hf e hgood hid
    apply List.mem_flatten.mpr
    refine ⟨matchedEntries (artifactFilter x) f, List.mem_map_of_mem _ hf, ?_⟩
    apply List.mem_filterMap.mpr
    refine ⟨LogLine.good e, hgood, ?_⟩
    simp [(passes_artifact_iff x hx e).mpr hid]

/-- C8 witness: querying a log holding a matching entry, a null-id
entry and an unparsable line for id `a1` excludes the null-id entry
and includes the matching one. -/
theorem C8_query_by_artifact_id_witness :
    nullIdEntry ∉ query_audit_trail
        [[LogLine.good a1Entry, LogLine.good nullIdEntry, LogLine.bad ("x")]]
        (artifactFilter ("a1")) ∧
    a1Entry ∈ query_audit_trail
        [[LogLine.good a1Entry, LogLine.good nullIdEntry, LogLine.bad ("x")]]
        (artifactFilter ("a1")) := by
  have h := C8_query_by_artifact_id
    [[LogLine.good a1Entry, LogLine.good nullIdEntry, LogLine.bad ("x")]]
    ("a1") (by decide)
  constructor
  · intro hmem
    have hfield := h.1 nullIdEntry hmem
    simp [nullIdEntry] at hfield
  · exact h.2 [LogLine.good a1Entry, LogLine.good nullIdEntry,
      LogLine.bad ("x")] (by simp) a1Entry (by simp) rfl

/-- C8 counterexample: the claim quantifies over every artifact id;
for the empty string the Python truthiness guard disables the filter,
so the query returns an entry whose `artifact_id` field is null,
contradicting the claim that no null-field entry is returned. -/
theorem C8_counterexample :
    query_audit_trail [[LogLine.good nullIdEntry]] (artifactFilter ("")) =
      [nullIdEntry] ∧ nullIdEntry.artifact_id = none :=
  ⟨rfl, rfl⟩

/-- C9 (confirmed): saving an artifact and loading its id returns an
equal artifact, field by field.  The only hypothesis is that
`file_path` is not the empty-string path name, which the string form
of a real `Path` can never be. -/
theorem C9_save_load_roundtrip (dir : MetaDir) (a : ArtifactMetadata)
    (h : a.file_path ≠ some ("")) :
    load_metadata (save_metadata dir a) a.artifact_id = .ok (some a) :=
  roundtrip_aux dir a h

/-- C9 witness: the stored video artifact with a file attached
round-trips through its document. -/
theorem C9_save_load_roundtrip_witness :
    load_metadata (save_metadata [] storedArtifact) ("a2") =
      .ok (some storedArtifact) :=
  C9_save_load_roundtrip [] storedArtifact (by simp [storedArtifact])

/-- C10 (confirmed): when the time-range query matches zero entries,
a CSV export writes nothing at all yet still returns the output path
as a success, while a JSON export writes an empty JSON array to the
output path and returns it. -/
theorem C10_export_empty_csv_vs_json (files : List (List LogLine))
    (outFS : OutFS) (path : String) (st et : Option Nat)
    (h : query_audit_trail files
      { noFilters with start_time := st, end_time := et } = []) :
    export_audit_trail files outFS path st et ("csv") = .ok (outFS, path) ∧
    export_audit_trail files outFS path st et ("json") =
      .ok (outWrite outFS path (ExportDoc.jsonArr []), path) := by
  constructor
  · simp only [export_audit_trail]
    rw [h]
    rfl
  · simp only [export_audit_trail]
    rw [h]
    rfl

/-- C10 witness: exporting an empty trail leaves the CSV output
directory untouched while the JSON export writes the empty array. -/
theorem C10_export_empty_csv_vs_json_witness :
    export_audit_trail [] [] ("out.csv") none none ("csv") =
      .ok ([], "out.csv") ∧
    export_audit_trail [] [] ("out.json") none none ("json") =
      .ok (outWrite [] ("out.json") (ExportDoc.jsonArr []), "out.json") :=
  ⟨(C10_export_empty_csv_vs_json [] [] ("out.csv") none none rfl).1,
   (C10_export_empty_csv_vs_json [] [] ("out.json") none none rfl).2⟩

end MedVidDeid
